import Mathlib

/-!
Verification development for the vector-store and chunking core of the
AI-Document-Search backend.

The definitions below are a shallow embedding of `src/backend/vector_store.py`
(class `VectorStore`) and `src/backend/document_processor.py`
(class `DocumentProcessor`).  Conventions used throughout:

* Python dictionaries with string keys are modelled as insertion-ordered
  association lists (`PyDict`); assignment `d[k] = v` is `dictInsert`
  (replace in place, else append), matching CPython dict semantics.
* Metadata values are modelled by `PyVal` (strings and integers, the two
  shapes the backend stores: `document_id` and `chunk_index`).
* Embedding vectors and similarity scores are abstract: the mock embedding
  (`_mock_embedding`, a `hash`-seeded numpy vector) is a fixed but otherwise
  arbitrary function `emb : String → V`, and cosine similarity
  (`_calculate_mock_similarity`) is a fixed function `sim : V → V → S` into a
  linearly ordered score type `S`.  All claims settled here concern only the
  comparisons, ordering and data flow of the scores, never float rounding,
  so this abstraction is faithful.
* Python exceptions (`AttributeError`, `KeyError`, `IndexError`) are
  modelled with `Except PyError`; code that cannot raise is a total function.
-/

/-- A Python scalar value as it occurs in chunk-metadata dictionaries:
string fields such as `document_id` and integer fields such as `chunk_index`. -/
inductive PyVal where
  | str : String → PyVal
  | int : Int → PyVal
deriving DecidableEq, Repr

/-- A Python `dict` with string keys: an insertion-ordered association list.
Dictionaries built by the modelled code always have pairwise-distinct keys. -/
abbrev PyDict (β : Type) := List (String × β)

/-- Python dict assignment `d[k] = v`: if the key is already present, its
value is replaced and the key keeps its position; otherwise the pair is
appended at the end. -/
def dictInsert {β : Type} (d : PyDict β) (k : String) (v : β) : PyDict β :=
  if d.any (fun kv => kv.1 == k) then
    d.map (fun kv => if kv.1 == k then (k, v) else kv)
  else d ++ [(k, v)]

/-- Pairwise-distinct keys, the invariant every Python dict satisfies. -/
def NodupKeys {β : Type} (d : PyDict β) : Prop := (d.map Prod.fst).Nodup

/-- The value stored per chunk by the mock branch of
`VectorStore.add_document` (vector_store.py lines 88-93): the document id,
the chunk text, the caller metadata dict and the chunk index.  Note that
`metadata` is stored as passed in; `document_id` and `chunk_index` are
sibling fields of the record, not keys of `metadata`. -/
structure DocInfo where
  document_id : String
  content : String
  metadata : PyDict PyVal
  chunk_index : Nat
deriving DecidableEq, Repr

/-- The mock storage of `VectorStore` (`_initialize_mock_storage`):
`mock_vectors` maps chunk id to embedding, `mock_documents` maps chunk id
to the stored chunk record. -/
structure MockState (V : Type) where
  mock_vectors : PyDict V
  mock_documents : PyDict DocInfo
deriving DecidableEq, Repr

/-- The chunk id `f"{document_id}_{i}"` used by `add_document`. -/
def chunkId (document_id : String) (i : Nat) : String :=
  document_id ++ "_" ++ toString i

/-- Body of the chunk loop of the mock `add_document` (lines 82-93): store
the chunk's embedding under its chunk id and the chunk record in
`mock_documents`.  `emb` stands for `self._mock_embedding`. -/
def addChunkStep {V : Type} (emb : String → V) (document_id : String)
    (metadata : PyDict PyVal) (acc : MockState V) (ic : Nat × String) :
    MockState V :=
  { mock_vectors := dictInsert acc.mock_vectors (chunkId document_id ic.1) (emb ic.2),
    mock_documents := dictInsert acc.mock_documents (chunkId document_id ic.1)
      ⟨document_id, ic.2, metadata, ic.1⟩ }

/-- Mock branch of `VectorStore.add_document` (lines 80-94), the
`for i, chunk in enumerate(chunks)` loop folding `addChunkStep`. -/
def add_document_mock {V : Type} (emb : String → V) (st : MockState V)
    (document_id : String) (chunks : List String) (metadata : PyDict PyVal) :
    MockState V :=
  chunks.enum.foldl (addChunkStep emb document_id metadata) st

/-- The per-chunk filter test of the mock `search` (lines 139-148): the chunk
fails only when some filter key is present in its metadata with a different
value; a key absent from the metadata does not fail the chunk. -/
def filterMatch (md : PyDict PyVal) (filter_criteria : PyDict PyVal) : Bool :=
  filter_criteria.all (fun kv =>
    match md.lookup kv.1 with
    | none => true
    | some w => w == kv.2)

/-- The guard `if filter_criteria:` of line 139 composed with `filterMatch`:
`none` (Python `None`) and the empty dict (falsy) disable filtering. -/
def passesFilter (md : PyDict PyVal) : Option (PyDict PyVal) → Bool
  | none => true
  | some f => if f.isEmpty then true else filterMatch md f

/-- One search hit as built by the mock `search` (lines 150-155). -/
structure SearchResult (S : Type) where
  document_id : String
  content : String
  similarity_score : S
  metadata : PyDict PyVal
deriving DecidableEq, Repr

/-- The candidate result list built by the loop of the mock `search`
(lines 133-155), before sorting and truncation: one hit per stored vector
whose record passes the filter, scored by `sim` against the query vector.
A chunk id missing from `mock_documents` is skipped (Python would raise
`KeyError` there; the state invariant keeps both dicts on the same keys). -/
def searchCandidates {V S : Type} (sim : V → V → S) (query_embedding : V)
    (st : MockState V) (filter_criteria : Option (PyDict PyVal)) :
    List (SearchResult S) :=
  st.mock_vectors.filterMap (fun cv =>
    match st.mock_documents.lookup cv.1 with
    | none => none
    | some info =>
      if passesFilter info.metadata filter_criteria then
        some ⟨info.document_id, info.content, sim query_embedding cv.2, info.metadata⟩
      else none)

/-- Stable sort by non-increasing key, modelling Python's stable
`sorted(results, key=lambda x: x["similarity_score"], reverse=True)` of
line 158: insertion sort under the reversed comparison, which keeps
elements of equal key in their original order. -/
def sortDesc {α S : Type} [LinearOrder S] (key : α → S) (l : List α) : List α :=
  l.insertionSort (fun a b => key b ≤ key a)

/-- Mock branch of `VectorStore.search` (lines 127-159): embed the query,
score and filter every stored chunk, sort by descending similarity score and
keep the first `limit` results. -/
def search_mock {V S : Type} [LinearOrder S] (emb : String → V)
    (sim : V → V → S) (st : MockState V) (query : String) (limit : Nat)
    (filter_criteria : Option (PyDict PyVal)) : List (SearchResult S) :=
  let query_embedding := emb query
  let results := searchCandidates sim query_embedding st filter_criteria
  (sortDesc (fun r => r.similarity_score) results).take limit

/-- The mock `search` viewed as an operation on the store state: the method
reads `self` and never assigns to it, so the state component is returned
unchanged. -/
def search_op {V S : Type} [LinearOrder S] (emb : String → V)
    (sim : V → V → S) (st : MockState V) (query : String) (limit : Nat)
    (filter_criteria : Option (PyDict PyVal)) :
    List (SearchResult S) × MockState V :=
  (search_mock emb sim st query limit filter_criteria, st)

/-- The `chunk_ids_to_remove` list of the mock `delete_document`
(lines 201-204): ids of the stored records whose `document_id` field equals
the argument. -/
def chunkIdsToRemove {V : Type} (st : MockState V) (document_id : String) :
    List String :=
  (st.mock_documents.filter (fun p => p.2.document_id == document_id)).map
    (fun p => p.1)

/-- Mock branch of `VectorStore.delete_document` (lines 198-213): remove the
collected chunk ids from both dicts and return `True` unconditionally (the
`except` clause of line 228 is unreachable in this branch). -/
def delete_document_mock {V : Type} (st : MockState V) (document_id : String) :
    Bool × MockState V :=
  (true,
    { mock_vectors :=
        st.mock_vectors.filter
          (fun p => !((chunkIdsToRemove st document_id).contains p.1)),
      mock_documents :=
        st.mock_documents.filter
          (fun p => !((chunkIdsToRemove st document_id).contains p.1)) })

/-- One entry of the ChromaDB collection `"documents"`: id, document text and
metadata, as passed to `collection.add` (lines 109-113). -/
structure ChromaEntry where
  id : String
  document : String
  metadata : PyDict PyVal
deriving DecidableEq, Repr

/-- The ChromaDB collection state: the stored entries in insertion order. -/
abbrev ChromaCollection := List ChromaEntry

/-- The per-chunk metadata dict built by the real branch of `add_document`
(lines 102-106): the Python dict literal
`{"document_id": document_id, "chunk_index": i, **metadata}` writes the two
fixed keys first and then merges the caller dict over them, so a caller key
named `document_id` or `chunk_index` overrides the fixed value. -/
def chunkMetadata (document_id : String) (i : Nat) (metadata : PyDict PyVal) :
    PyDict PyVal :=
  metadata.foldl (fun acc kv => dictInsert acc kv.1 kv.2)
    [("document_id", PyVal.str document_id), ("chunk_index", PyVal.int i)]

/-- Real (ChromaDB) branch of `add_document` (lines 96-113): one
`collection.add` per chunk, in order. -/
def add_document_chroma (c : ChromaCollection) (document_id : String)
    (chunks : List String) (metadata : PyDict PyVal) : ChromaCollection :=
  c ++ chunks.enum.map (fun ic =>
    ⟨chunkId document_id ic.1, ic.2, chunkMetadata document_id ic.1 metadata⟩)

/-- Real branch of `delete_document` (lines 215-227): `collection.get` with
`where={"document_id": document_id}` selects the entries whose metadata maps
`document_id` to that value; these are the ids passed to
`collection.delete`. -/
def chromaIdsToRemove (c : ChromaCollection) (document_id : String) :
    List String :=
  (c.filter (fun e =>
      e.metadata.lookup "document_id" == some (PyVal.str document_id))).map
    (fun e => e.id)

/-- Real branch of `delete_document` (lines 215-227), continued:
`collection.delete(ids=results["ids"])` removes the matching entries by id;
`True` is returned unconditionally. -/
def delete_document_chroma (c : ChromaCollection) (document_id : String) :
    Bool × ChromaCollection :=
  (true, c.filter (fun e => !((chromaIdsToRemove c document_id).contains e.id)))

/-- The Python exceptions the modelled code can raise. -/
inductive PyError where
  | attributeError
  | keyError
  | indexError
deriving DecidableEq, Repr

/-- The attribute state of a `VectorStore` instance after `__init__`
(lines 15-38): in mock mode only the two mock dicts are set and
`self.collection` is never assigned (`collection = none`); in real mode
`self.collection` holds the ChromaDB collection. -/
structure VectorStoreState (V : Type) where
  use_mock : Bool
  mock : MockState V
  collection : Option ChromaCollection

/-- `VectorStore.__init__(use_mock)`: the mock branch returns before ever
touching `self.collection`; the real branch opens (here: a fresh empty)
collection. -/
def VectorStore.mk_store (V : Type) (use_mock : Bool) : VectorStoreState V :=
  if use_mock then ⟨true, ⟨[], []⟩, none⟩ else ⟨false, ⟨[], []⟩, some []⟩

/-- The loop of `get_document_count` (lines 242-244): read
`metadata["document_id"]` of every stored entry, raising `KeyError` when the
key is absent. -/
def docIdList : ChromaCollection → Except PyError (List PyVal)
  | [] => .ok []
  | e :: rest =>
    match e.metadata.lookup "document_id" with
    | none => .error .keyError
    | some v =>
      match docIdList rest with
      | .error er => .error er
      | .ok vs => .ok (v :: vs)

/-- `VectorStore.get_document_count` (lines 232-245).  The method has no
mock branch: it dereferences `self.collection` unconditionally, which in mock
mode was never assigned, so Python raises `AttributeError`.  In real mode it
returns the number of distinct `document_id` metadata values. -/
def get_document_count {V : Type} (vs : VectorStoreState V) :
    Except PyError Nat :=
  match vs.collection with
  | none => .error .attributeError
  | some c =>
    match docIdList c with
    | .error er => .error er
    | .ok vs => .ok vs.dedup.length

/-- The reply of `collection.query` as consumed by the real branch of
`search` (lines 166-183): parallel lists of ids, documents and metadatas,
plus the optional `distances` list (ChromaDB returns the hits
nearest-first, i.e. with ascending distances). -/
structure ChromaReply (S : Type) where
  ids : List String
  documents : List String
  metadatas : List (PyDict PyVal)
  distances : Option (List S)
deriving Repr

/-- The expression
`float(results["distances"][0][i]) if "distances" in results else 0.99` of
line 181.  `fallback` stands for the literal `0.99`. -/
def similarityFromReply {S : Type} (fallback : S) (reply : ChromaReply S)
    (i : Nat) : Except PyError S :=
  match reply.distances with
  | none => .ok fallback
  | some ds =>
    match ds.get? i with
    | none => .error .indexError
    | some x => .ok x

/-- One formatted hit of the real branch of `search` (lines 178-183).  The
document id is read out of the metadata dict, hence a `PyVal`. -/
structure ChromaSearchResult (S : Type) where
  document_id : PyVal
  content : String
  similarity_score : S
  metadata : PyDict PyVal
deriving DecidableEq, Repr

/-- The formatting loop of the real branch of `search` (lines 173-183) over
an explicit list of indices, raising on the first failing subscript or key
access exactly where Python would. -/
def formatChromaAux {S : Type} (fallback : S) (reply : ChromaReply S) :
    List Nat → Except PyError (List (ChromaSearchResult S))
  | [] => .ok []
  | i :: rest =>
    match reply.metadatas.get? i with
    | none => .error .indexError
    | some md =>
      match md.lookup "document_id" with
      | none => .error .keyError
      | some did =>
        match reply.documents.get? i with
        | none => .error .indexError
        | some doc =>
          match similarityFromReply fallback reply i with
          | .error er => .error er
          | .ok score =>
            match formatChromaAux fallback reply rest with
            | .error er => .error er
            | .ok tail => .ok (⟨did, doc, score, md⟩ :: tail)

/-- Result formatting of the real branch of `search`
(`for i, doc_id in enumerate(results["ids"][0])`, lines 173-185): the hits
are reported in the reply's order and `similarity_score` is set to the raw
ChromaDB distance. -/
def formatChromaResults {S : Type} (fallback : S) (reply : ChromaReply S) :
    Except PyError (List (ChromaSearchResult S)) :=
  formatChromaAux fallback reply (List.range reply.ids.length)

/-!
Chunking.  `DocumentProcessor._split_text` (document_processor.py line 131)
delegates to langchain's `RecursiveCharacterTextSplitter`, constructed in
`DocumentProcessor.__init__` (lines 23-27) with the given `chunk_size` and
`chunk_overlap`, `length_function=len` and the library defaults
`separators=["\n\n", "\n", " ", ""]`, `keep_separator=True`,
`is_separator_regex=False`, `strip_whitespace=True`.  The definitions below
embed that third-party splitter, which is the code `_split_text` actually
runs: pick the first separator occurring in the text, split keeping each
separator glued to the front of the following piece, then greedily re-merge
the pieces into chunks of at most `chunk_size` characters, carrying at most
`chunk_overlap` trailing characters over into the next chunk; pieces no
shorter than `chunk_size` are re-split with the remaining separators.  Text
is handled as `List Char` so every definition reduces by computation. -/

/-- Character-list text, the unit the splitter works on. -/
abbrev Chars := List Char

/-- Python `str.strip()` on character lists. -/
def trimChars (l : Chars) : Chars :=
  ((l.dropWhile Char.isWhitespace).reverse.dropWhile Char.isWhitespace).reverse

/-- Splitting worker: scan for the separator and cut; `fuel` bounds the scan
by the text length (the zero case is unreachable for `fuel ≥ length`). -/
def splitOnAuxC (sep : Chars) : Nat → Chars → Chars → List Chars
  | _, [], acc => [acc.reverse]
  | 0, rest, acc => [acc.reverse ++ rest]
  | fuel + 1, c :: rest, acc =>
    if sep.isPrefixOf (c :: rest) then
      acc.reverse :: splitOnAuxC sep fuel ((c :: rest).drop sep.length) []
    else
      splitOnAuxC sep fuel rest (c :: acc)

/-- `re.split` on a literal separator (the separators are escaped, so they
match literally): the pieces between consecutive occurrences, in order,
keeping empty pieces. -/
def splitOnChars (sep : Chars) (text : Chars) : List Chars :=
  splitOnAuxC sep text.length text []

/-- langchain `_split_text_with_regex` with `keep_separator=True`: split,
glue each separator onto the front of the following piece, drop empty
pieces.  The empty separator splits into single characters. -/
def splitTextWithSep (sep : Chars) (text : Chars) : List Chars :=
  let pieces :=
    if sep.isEmpty then text.map (fun c => [c])
    else
      match splitOnChars sep text with
      | [] => []
      | p :: rest => p :: rest.map (fun q => sep ++ q)
  pieces.filter (fun p => !p.isEmpty)

/-- `re.search` for a literal pattern: the separator occurs in the text. -/
def occursInChars (sep text : Chars) : Bool :=
  !sep.isEmpty && decide (2 ≤ (splitOnChars sep text).length)

/-- Separator selection of `RecursiveCharacterTextSplitter._split_text`:
the first separator equal to `""` or occurring in the text is chosen,
together with the remaining separators for recursive re-splitting; if none
matches, the last separator is used with no further re-splitting. -/
def pickSeparator : List Chars → Chars → Chars × List Chars
  | [], _ => ([], [])
  | s :: rest, text =>
    if s.isEmpty then ([], [])
    else if occursInChars s text then (s, rest)
    else
      match rest with
      | [] => (s, [])
      | _ :: _ => pickSeparator rest text

/-- Accumulator of langchain `_merge_splits`: emitted chunks, the pieces of
the chunk under construction (`current_doc`) and its running length
(`total`). -/
structure MergeSt where
  docs : List Chars
  current_doc : List Chars
  total : Nat
deriving Repr

/-- langchain `_join_docs`: join, strip, and drop the chunk if it strips to
empty. -/
def joinDocs (sep : Chars) (ds : List Chars) : Option Chars :=
  let text := trimChars (List.intercalate sep ds)
  if text.isEmpty then none else some text

/-- The inner `while` of `_merge_splits`: shed leading pieces while the
carried length exceeds `chunk_overlap`, or while the incoming piece would
still not fit.  (With an empty `current_doc` the running total is zero and
the loop is never entered, so the list pattern is exhaustive.) -/
def popLoop (chunk_size chunk_overlap sep_len d_len : Nat) :
    List Chars → Nat → List Chars × Nat
  | [], total => ([], total)
  | c :: rest, total =>
    if total > chunk_overlap ∨
        (total + d_len + sep_len > chunk_size ∧ total > 0) then
      popLoop chunk_size chunk_overlap sep_len d_len rest
        (total - (c.length + if rest.isEmpty then 0 else sep_len))
    else (c :: rest, total)

/-- One iteration of the `for d in splits` loop of `_merge_splits`: when the
incoming piece would overflow `chunk_size`, emit the current chunk and shed
its leading pieces down to the overlap budget, then append the piece. -/
def mergeStep (chunk_size chunk_overlap : Nat) (sep : Chars) (st : MergeSt)
    (d : Chars) : MergeSt :=
  let sep_len := sep.length
  let d_len := d.length
  let st1 :=
    if st.total + d_len + (if st.current_doc.isEmpty then 0 else sep_len) >
        chunk_size then
      if st.current_doc.isEmpty then st
      else
        let docs' := st.docs ++ (joinDocs sep st.current_doc).toList
        let pr := popLoop chunk_size chunk_overlap sep_len d_len
          st.current_doc st.total
        ⟨docs', pr.1, pr.2⟩
    else st
  let cur := st1.current_doc ++ [d]
  ⟨st1.docs, cur, st1.total + d_len + (if cur.length > 1 then sep_len else 0)⟩

/-- langchain `_merge_splits`: fold the pieces and flush the last chunk. -/
def mergeSplits (chunk_size chunk_overlap : Nat) (sep : Chars)
    (splits : List Chars) : List Chars :=
  let st := splits.foldl (mergeStep chunk_size chunk_overlap sep) ⟨[], [], 0⟩
  st.docs ++ (joinDocs sep st.current_doc).toList

/-- The split-processing loop of `RecursiveCharacterTextSplitter._split_text`
over the pieces: pieces shorter than `chunk_size` collect into `good` and
are merged; a piece at least `chunk_size` long flushes `good` and is either
emitted as is (no separators left) or re-split by `recur`.  With
`keep_separator=True` the merge separator is the empty string. -/
def splitTextGo (chunk_size chunk_overlap : Nat)
    (recur : Option (Chars → List Chars)) (good : List Chars) :
    List Chars → List Chars
  | [] => if good.isEmpty then [] else mergeSplits chunk_size chunk_overlap [] good
  | s :: rest =>
    if s.length < chunk_size then
      splitTextGo chunk_size chunk_overlap recur (good ++ [s]) rest
    else
      let flushed :=
        if good.isEmpty then [] else mergeSplits chunk_size chunk_overlap [] good
      let here :=
        match recur with
        | none => [s]
        | some f => f s
      flushed ++ here ++ splitTextGo chunk_size chunk_overlap recur [] rest

/-- `RecursiveCharacterTextSplitter._split_text`: choose a separator, split,
and process the pieces, re-splitting oversized pieces with the remaining
separators.  `fuel` bounds the recursion depth by the separator-list length;
any fuel past that bound yields the same value. -/
def splitTextFuel (chunk_size chunk_overlap : Nat) :
    Nat → List Chars → Chars → List Chars
  | 0, _, text => [text]
  | fuel + 1, separators, text =>
    let pr := pickSeparator separators text
    let splits := splitTextWithSep pr.1 text
    let recur :=
      if pr.2.isEmpty then none
      else some (splitTextFuel chunk_size chunk_overlap fuel pr.2)
    splitTextGo chunk_size chunk_overlap recur [] splits

/-- The default separator list of `RecursiveCharacterTextSplitter`. -/
def text_splitter_separators : List Chars := [['\n', '\n'], ['\n'], [' '], []]

/-- `DocumentProcessor._split_text(text)` (document_processor.py lines
121-131): run the configured `RecursiveCharacterTextSplitter.split_text`. -/
def split_text (chunk_size chunk_overlap : Nat) (text : String) : List String :=
  (splitTextFuel chunk_size chunk_overlap (text_splitter_separators.length + 1)
      text_splitter_separators text.data).map
    (fun c => String.mk c)

/-! Helper lemmas about the dictionary model. -/

theorem lookup_eq_none_of_forall_ne {β : Type} {d : PyDict β} {k : String}
    (h : ∀ p ∈ d, p.1 ≠ k) : d.lookup k = none := by
  induction d with
  | nil => rfl
  | cons a t ih =>
    obtain ⟨ka, w⟩ := a
    rw [List.lookup_cons]
    have hne : (k == ka) = false :=
      beq_eq_false_iff_ne.mpr (Ne.symm (h (ka, w) (List.mem_cons_self _ _)))
    rw [hne]
    exact ih (fun p hp => h p (List.mem_cons_of_mem _ hp))

theorem forall_ne_of_lookup_eq_none {β : Type} {d : PyDict β} {k : String}
    (h : d.lookup k = none) : ∀ p ∈ d, p.1 ≠ k := by
  induction d with
  | nil => intro p hp; cases hp
  | cons a t ih =>
    obtain ⟨ka, w⟩ := a
    rw [List.lookup_cons] at h
    intro p hp
    rcases List.mem_cons.mp hp with rfl | hp
    · intro hEq
      rw [show (k == ka) = true from beq_iff_eq.mpr hEq.symm] at h
      cases h
    · cases hb : (k == ka) with
      | true => rw [hb] at h; cases h
      | false => exact ih (by rwa [hb] at h) p hp

theorem lookup_eq_none_of_any_eq_false {β : Type} {d : PyDict β} {k : String}
    (h : d.any (fun kv => kv.1 == k) = false) : d.lookup k = none := by
  refine lookup_eq_none_of_forall_ne (fun p hp hEq => ?_)
  rw [List.any_eq_false] at h
  exact h p hp (beq_iff_eq.mpr hEq)

theorem lookup_map_replace_self {β : Type} {d : PyDict β} {k : String} (v : β)
    (h : d.any (fun kv => kv.1 == k) = true) :
    (d.map (fun kv => if kv.1 == k then (k, v) else kv)).lookup k = some v := by
  induction d with
  | nil => simp at h
  | cons a t ih =>
    obtain ⟨ka, w⟩ := a
    rw [List.map_cons]
    by_cases hk : ka = k
    · subst hk
      rw [show (if ((ka, w).1 == ka) then ((ka, v) : String × β) else (ka, w)) = (ka, v) from
          if_pos (beq_self_eq_true ka)]
      exact List.lookup_cons_self
    · have hf : ((ka, w).1 == k) = false := beq_eq_false_iff_ne.mpr hk
      rw [show (if ((ka, w).1 == k) then ((k, v) : String × β) else (ka, w)) = (ka, w) from
          if_neg (by rw [hf]; exact Bool.false_ne_true)]
      rw [List.lookup_cons, show (k == ka) = false from beq_eq_false_iff_ne.mpr (Ne.symm hk)]
      rw [List.any_cons, hf, Bool.false_or] at h
      exact ih h

theorem lookup_map_replace_ne {β : Type} (d : PyDict β) {k k' : String} (v : β)
    (h : k' ≠ k) :
    (d.map (fun kv => if kv.1 == k then (k, v) else kv)).lookup k' =
      d.lookup k' := by
  induction d with
  | nil => rfl
  | cons a t ih =>
    obtain ⟨ka, w⟩ := a
    rw [List.map_cons]
    by_cases hk : ka = k
    · subst hk
      rw [show (if ((ka, w).1 == ka) then ((ka, v) : String × β) else (ka, w)) = (ka, v) from
          if_pos (beq_self_eq_true ka)]
      rw [List.lookup_cons, List.lookup_cons,
        show (k' == ka) = false from beq_eq_false_iff_ne.mpr h]
      exact ih
    · rw [show (if ((ka, w).1 == k) then ((k, v) : String × β) else (ka, w)) = (ka, w) from
          if_neg (by rw [beq_eq_false_iff_ne.mpr hk]; exact Bool.false_ne_true)]
      rw [List.lookup_cons, List.lookup_cons]
      cases hb : (k' == ka)
      · exact ih
      · rfl

theorem lookup_dictInsert_self {β : Type} (d : PyDict β) (k : String) (v : β) :
    (dictInsert d k v).lookup k = some v := by
  unfold dictInsert
  split
  · exact lookup_map_replace_self v (by assumption)
  · rename_i h
    rw [List.lookup_append,
      lookup_eq_none_of_any_eq_false (Bool.not_eq_true _ ▸ h), Option.none_or,
      List.lookup_cons_self]

theorem lookup_dictInsert_ne {β : Type} (d : PyDict β) {k k' : String} (v : β)
    (h : k' ≠ k) : (dictInsert d k v).lookup k' = d.lookup k' := by
  unfold dictInsert
  split
  · exact lookup_map_replace_ne d v h
  · rw [List.lookup_append, List.lookup_cons,
      show (k' == k) = false from beq_eq_false_iff_ne.mpr h, List.lookup_nil,
      Option.or_none]

theorem mem_dictInsert {β : Type} {d : PyDict β} {k : String} {v : β}
    {p : String × β} (h : p ∈ dictInsert d k v) : p ∈ d ∨ p = (k, v) := by
  unfold dictInsert at h
  split at h
  · rcases List.mem_map.mp h with ⟨q, hq, hEq⟩
    by_cases hk : q.1 = k
    · right
      rw [← hEq, if_pos (beq_iff_eq.mpr hk)]
    · left
      rwa [← hEq, if_neg (by rw [beq_eq_false_iff_ne.mpr hk]; exact Bool.false_ne_true)]
  · rcases List.mem_append.mp h with h1 | h1
    · exact Or.inl h1
    · exact Or.inr (by simpa using h1)

theorem lookup_foldl_dictInsert {β : Type} (md : PyDict β) (acc : PyDict β)
    (k : String) :
    (md.foldl (fun a kv => dictInsert a kv.1 kv.2) acc).lookup k =
      (md.reverse.lookup k).or (acc.lookup k) := by
  induction md generalizing acc with
  | nil => simp
  | cons kv rest ih =>
    obtain ⟨ka, w⟩ := kv
    rw [List.foldl_cons, ih, List.reverse_cons, List.lookup_append]
    cases hA : rest.reverse.lookup k
    · rw [Option.none_or, Option.none_or]
      by_cases hk : k = ka
      · subst hk
        rw [lookup_dictInsert_self, List.lookup_cons_self]
        rfl
      · rw [lookup_dictInsert_ne _ _ hk, List.lookup_cons,
          show (k == ka) = false from beq_eq_false_iff_ne.mpr hk, List.lookup_nil,
          Option.none_or]
    · rfl

theorem nodupKeys_reverse {β : Type} {d : PyDict β} (hn : NodupKeys d) :
    NodupKeys d.reverse := by
  unfold NodupKeys at *
  rw [List.map_reverse]
  exact List.nodup_reverse.mpr hn

theorem lookup_of_mem_nodupKeys {β : Type} {d : PyDict β} {k : String} {v : β}
    (hn : NodupKeys d) (hm : (k, v) ∈ d) : d.lookup k = some v := by
  induction d with
  | nil => cases hm
  | cons a t ih =>
    obtain ⟨ka, w⟩ := a
    unfold NodupKeys at hn
    rw [List.map_cons, List.nodup_cons] at hn
    rcases List.mem_cons.mp hm with h | h
    · rw [show k = ka from congrArg Prod.fst h, show v = w from congrArg Prod.snd h]
      exact List.lookup_cons_self
    · have hka : ka ≠ k := by
        intro hEq
        subst hEq
        exact hn.1 (List.mem_map.mpr ⟨(ka, v), h, rfl⟩)
      rw [List.lookup_cons,
        show (k == ka) = false from beq_eq_false_iff_ne.mpr (Ne.symm hka)]
      exact ih hn.2 h

theorem nodupKeys_value_unique {β : Type} {d : PyDict β} {k : String}
    {a b : β} (hn : NodupKeys d) (ha : (k, a) ∈ d) (hb : (k, b) ∈ d) :
    a = b := by
  have h1 := lookup_of_mem_nodupKeys hn ha
  have h2 := lookup_of_mem_nodupKeys hn hb
  rw [h1] at h2
  exact Option.some.inj h2

/-! Helper lemmas about search, sorting and result formatting. -/

theorem passesFilter_some (md f : PyDict PyVal) :
    passesFilter md (some f) = filterMatch md f := by
  cases f <;> rfl

theorem filterMatch_iff (md f : PyDict PyVal) :
    filterMatch md f = true ↔
      ∀ k v, (k, v) ∈ f → ∀ w, md.lookup k = some w → w = v := by
  unfold filterMatch
  rw [List.all_eq_true]
  constructor
  · intro h k v hkv w hw
    have hx := h (k, v) hkv
    rw [hw] at hx
    exact beq_iff_eq.mp hx
  · intro h kv hkv
    cases hw : md.lookup kv.1 with
    | none => rfl
    | some w => exact beq_iff_eq.mpr (h kv.1 kv.2 hkv w hw)

theorem searchCandidates_some_filter {V S : Type} (sim : V → V → S) (qv : V)
    (docs : PyDict DocInfo) (f : PyDict PyVal) :
    ∀ vecs : PyDict V,
      searchCandidates sim qv ⟨vecs, docs⟩ (some f) =
        (searchCandidates sim qv ⟨vecs, docs⟩ none).filter
          (fun r => filterMatch r.metadata f) := by
  intro vecs
  induction vecs with
  | nil => rfl
  | cons cv rest ih =>
    dsimp only [searchCandidates] at ih ⊢
    rw [List.filterMap_cons, List.filterMap_cons]
    cases hl : docs.lookup cv.1 with
    | none => exact ih
    | some info =>
      dsimp only
      rw [passesFilter_some,
        if_pos (show passesFilter info.metadata none = true from rfl)]
      dsimp only
      rw [List.filter_cons]
      dsimp only
      cases hf : filterMatch info.metadata f with
      | true =>
        simp only [eq_self_iff_true, if_true]
        exact congrArg _ ih
      | false =>
        simp only [Bool.false_eq_true, if_false]
        exact ih

theorem sortDesc_pairwise {α S : Type} [LinearOrder S] (key : α → S)
    (l : List α) :
    (sortDesc key l).Pairwise (fun a b => key b ≤ key a) := by
  haveI : IsTotal α (fun a b => key b ≤ key a) :=
    ⟨fun a b => le_total (key b) (key a)⟩
  haveI : IsTrans α (fun a b => key b ≤ key a) :=
    ⟨fun _ _ _ h1 h2 => le_trans h2 h1⟩
  exact List.sorted_insertionSort _ l

theorem sortDesc_perm {α S : Type} [LinearOrder S] (key : α → S) (l : List α) :
    (sortDesc key l).Perm l :=
  List.perm_insertionSort _ l

theorem mem_foldl_addChunkStep {V : Type} (emb : String → V) (d : String)
    (md : PyDict PyVal) :
    ∀ (L : List (Nat × String)) (st : MockState V) (p : String × DocInfo),
      p ∈ (L.foldl (addChunkStep emb d md) st).mock_documents →
      p ∈ st.mock_documents ∨
        ∃ jc ∈ L, p = (chunkId d jc.1, ⟨d, jc.2, md, jc.1⟩) := by
  intro L
  induction L with
  | nil => exact fun st p h => Or.inl h
  | cons ic rest ih =>
    intro st p h
    rw [List.foldl_cons] at h
    rcases ih _ p h with h1 | ⟨jc, hjc, hEq⟩
    · simp only [addChunkStep] at h1
      rcases mem_dictInsert h1 with h2 | h2
      · exact Or.inl h2
      · exact Or.inr ⟨ic, List.mem_cons_self _ _, h2⟩
    · exact Or.inr ⟨jc, List.mem_cons_of_mem _ hjc, hEq⟩

theorem formatChromaAux_scores {S : Type} (fallback : S)
    (reply : ChromaReply S) (ds : List S) (hds : reply.distances = some ds) :
    ∀ (idxs : List Nat) (rs : List (ChromaSearchResult S)),
      formatChromaAux fallback reply idxs = .ok rs →
      rs.map (fun r => r.similarity_score) =
        idxs.filterMap (fun i => ds.get? i) := by
  intro idxs
  induction idxs with
  | nil =>
    intro rs h
    cases h
    rfl
  | cons i rest ih =>
    intro rs h
    unfold formatChromaAux at h
    cases h1 : reply.metadatas.get? i with
    | none => simp only [h1] at h; cases h
    | some mdi =>
      simp only [h1] at h
      cases h2 : mdi.lookup "document_id" with
      | none => simp only [h2] at h; cases h
      | some did =>
        simp only [h2] at h
        cases h3 : reply.documents.get? i with
        | none => simp only [h3] at h; cases h
        | some doc =>
          simp only [h3] at h
          unfold similarityFromReply at h
          simp only [hds] at h
          cases h4 : ds.get? i with
          | none => simp only [h4] at h; cases h
          | some x =>
            simp only [h4] at h
            cases h5 : formatChromaAux fallback reply rest with
            | error e => simp only [h5] at h; cases h
            | ok tail =>
              simp only [h5] at h
              cases h
              rw [List.map_cons, ih tail h5, List.filterMap_cons, h4]

theorem filterMap_get_range {α : Type} (l : List α) :
    (List.range l.length).filterMap (fun i => l.get? i) = l := by
  induction l with
  | nil => rfl
  | cons a t ih =>
    rw [List.length_cons, List.range_succ_eq_map, List.filterMap_cons,
      List.filterMap_map]
    show a :: List.filterMap (fun i => t.get? i) (List.range t.length) = a :: t
    rw [ih]

theorem mem_removedChunkIds {V : Type} (st : MockState V) (d : String)
    (cid : String) :
    cid ∈ chunkIdsToRemove st d ↔
      ∃ info, (cid, info) ∈ st.mock_documents ∧ info.document_id = d := by
  unfold chunkIdsToRemove
  rw [List.mem_map]
  constructor
  · rintro ⟨⟨k, info⟩, hp, rfl⟩
    rw [List.mem_filter] at hp
    exact ⟨info, hp.1, beq_iff_eq.mp hp.2⟩
  · rintro ⟨info, hm, hd⟩
    exact ⟨(cid, info), List.mem_filter.mpr ⟨hm, beq_iff_eq.mpr hd⟩, rfl⟩

theorem contains_iff_mem {α : Type} [BEq α] [LawfulBEq α] (l : List α)
    (a : α) : l.contains a = true ↔ a ∈ l :=
  List.elem_iff

theorem mem_removedChromaIds (c : ChromaCollection) (d : String) (x : String) :
    x ∈ chromaIdsToRemove c d ↔
      ∃ e2, e2 ∈ c ∧ e2.id = x ∧
        e2.metadata.lookup "document_id" = some (PyVal.str d) := by
  unfold chromaIdsToRemove
  rw [List.mem_map]
  constructor
  · rintro ⟨e, he, rfl⟩
    rw [List.mem_filter] at he
    exact ⟨e, he.1, rfl, beq_iff_eq.mp he.2⟩
  · rintro ⟨e, he, rfl, hd⟩
    exact ⟨e, List.mem_filter.mpr ⟨he, beq_iff_eq.mpr hd⟩, rfl⟩

/-! The claims. -/

/-- C2 (counterexample): the chunk stored under `"d_0"` has empty metadata,
so it lacks the filtered key `"file_type"`; the claim requires it to be
excluded from the candidate result set, but the mock `search`'s filter
(lines 142-145) only rejects a chunk when the key is present with a
different value, so the chunk is returned. -/
theorem claim_C2_counterexample :
    searchCandidates (V := Unit) (S := Int) (fun _ _ => 0) ()
        ⟨[("d_0", ())], [("d_0", ⟨"d", "hello", [], 0⟩)]⟩
        (some [("file_type", PyVal.str "pdf")]) =
      [⟨"d", "hello", 0, []⟩] ∧
    ([] : PyDict PyVal).lookup "file_type" = none :=
  ⟨rfl, rfl⟩

/-- C2 (amended): with a non-empty filter, the candidate result set of the
mock `search` is exactly the unfiltered candidate set restricted to chunks
whose metadata matches the filter in the code's sense: for every filter key
that is PRESENT in the chunk's metadata the values must be equal, while a
chunk whose metadata lacks a filtered key is kept, not excluded. -/
theorem claim_C2_amended {V S : Type} (sim : V → V → S) (qv : V)
    (st : MockState V) (f : PyDict PyVal) :
    searchCandidates sim qv st (some f) =
      (searchCandidates sim qv st none).filter
        (fun r => filterMatch r.metadata f) ∧
    (∀ md : PyDict PyVal, filterMatch md f = true ↔
      ∀ k v, (k, v) ∈ f → ∀ w, md.lookup k = some w → w = v) :=
  ⟨searchCandidates_some_filter sim qv st.mock_documents f st.mock_vectors,
   fun md => filterMatch_iff md f⟩

/-- C2 witness: the filter equation evaluated on a concrete store. -/
theorem claim_C2_amended_witness :
    searchCandidates (V := Unit) (S := Int) (fun _ _ => 0) ()
        ⟨[("d_0", ())], [("d_0", ⟨"d", "h", [("file_type", PyVal.str "txt")], 0⟩)]⟩
        (some [("file_type", PyVal.str "pdf")]) =
      (searchCandidates (fun _ _ => 0) ()
          ⟨[("d_0", ())], [("d_0", ⟨"d", "h", [("file_type", PyVal.str "txt")], 0⟩)]⟩
          none).filter
        (fun r => filterMatch r.metadata [("file_type", PyVal.str "pdf")]) :=
  (claim_C2_amended (fun _ _ => 0) ()
      ⟨[("d_0", ())], [("d_0", ⟨"d", "h", [("file_type", PyVal.str "txt")], 0⟩)]⟩
      [("file_type", PyVal.str "pdf")]).1

/-- C3 (counterexample): in the ChromaDB branch of `add_document` the dict
literal `{"document_id": ..., "chunk_index": i, **metadata}` lets a
caller-supplied `document_id` key override the stored one, and in the mock
branch the stored chunk's metadata is the caller dict unchanged, which lacks
the `document_id` and `chunk_index` keys the claim requires. -/
theorem claim_C3_counterexample :
    (chunkMetadata "doc1" 0 [("document_id", PyVal.str "evil")]).lookup
        "document_id" = some (PyVal.str "evil") ∧
    PyVal.str "evil" ≠ PyVal.str "doc1" ∧
    (add_document_mock (V := Unit) (fun _ => ()) ⟨[], []⟩ "doc1" ["A"]
        []).mock_documents = [("doc1_0", ⟨"doc1", "A", [], 0⟩)] ∧
    ([] : PyDict PyVal).lookup "document_id" = none :=
  ⟨rfl, by decide, rfl, rfl⟩

/-- C3 (amended): in the ChromaDB branch the stored chunk metadata contains
`document_id` (equal to the argument) and `chunk_index` (equal to the
position) whenever the caller metadata does not itself carry those keys, and
every caller-supplied key is present with its own value — caller keys
override on collision; in the mock branch the stored chunk record carries
`document_id` and `chunk_index` as record fields and stores the caller
metadata dict unchanged. -/
theorem claim_C3_amended (d : String) (i : Nat) (md : PyDict PyVal) :
    (md.lookup "document_id" = none →
      (chunkMetadata d i md).lookup "document_id" = some (PyVal.str d)) ∧
    (md.lookup "chunk_index" = none →
      (chunkMetadata d i md).lookup "chunk_index" = some (PyVal.int i)) ∧
    (NodupKeys md → ∀ k v, (k, v) ∈ md →
      (chunkMetadata d i md).lookup k = some v) ∧
    (∀ (V : Type) (emb : String → V) (st : MockState V)
        (chunks : List String) (p : String × DocInfo),
      p ∈ (add_document_mock emb st d chunks md).mock_documents →
      p ∈ st.mock_documents ∨
        ∃ j c, chunks.get? j = some c ∧ p = (chunkId d j, ⟨d, c, md, j⟩)) := by
  refine ⟨?_, ?_, ?_, ?_⟩
  · intro h
    unfold chunkMetadata
    rw [lookup_foldl_dictInsert,
      lookup_eq_none_of_forall_ne
        (fun p hp => forall_ne_of_lookup_eq_none h p (List.mem_reverse.mp hp)),
      Option.none_or]
    rfl
  · intro h
    unfold chunkMetadata
    rw [lookup_foldl_dictInsert,
      lookup_eq_none_of_forall_ne
        (fun p hp => forall_ne_of_lookup_eq_none h p (List.mem_reverse.mp hp)),
      Option.none_or]
    rfl
  · intro hn k v hm
    unfold chunkMetadata
    rw [lookup_foldl_dictInsert,
      lookup_of_mem_nodupKeys (nodupKeys_reverse hn) (List.mem_reverse.mpr hm)]
    rfl
  · intro V emb st chunks p hp
    rcases mem_foldl_addChunkStep emb d md chunks.enum st p hp with
      h | ⟨jc, hjc, hEq⟩
    · exact Or.inl h
    · exact Or.inr ⟨jc.1, jc.2, List.mem_enum_iff_get?.mp hjc, hEq⟩

/-- C3 witness: the amended guarantees evaluated at a concrete call. -/
theorem claim_C3_amended_witness :
    (chunkMetadata "doc1" 0 [("file_type", PyVal.str "txt")]).lookup
        "document_id" = some (PyVal.str "doc1") ∧
    (chunkMetadata "doc1" 0 [("file_type", PyVal.str "txt")]).lookup
        "file_type" = some (PyVal.str "txt") :=
  ⟨(claim_C3_amended "doc1" 0 [("file_type", PyVal.str "txt")]).1 rfl,
   (claim_C3_amended "doc1" 0 [("file_type", PyVal.str "txt")]).2.2.1
     (by show ([("file_type", PyVal.str "txt")].map Prod.fst).Nodup; decide)
     "file_type" (PyVal.str "txt") (List.mem_singleton.mpr rfl)⟩

/-- C4 (counterexample): `delete_document` on a store with no chunks at all
returns `True`; the claim requires `false` when no chunk was removed. -/
theorem claim_C4_counterexample :
    (delete_document_mock (V := Unit) ⟨[], []⟩ "doc1").1 = true := rfl

/-- C4 (amended): `delete_document` returns `True` unconditionally whenever
the backend raises no exception — also when no chunk with that document id
exists, and also on a second delete of the same id — in both the mock and
the ChromaDB branch; it never raises (both branches are total), and `False`
is only produced by the `except` handler of lines 228-230. -/
theorem claim_C4_amended {V : Type} (st : MockState V) (d : String)
    (c : ChromaCollection) :
    (delete_document_mock st d).1 = true ∧
    (delete_document_mock (delete_document_mock st d).2 d).1 = true ∧
    (delete_document_chroma c d).1 = true :=
  ⟨rfl, rfl, rfl⟩

/-- C5 (code bug): `get_document_count` dereferences `self.collection`
without a mock branch (vector_store.py line 239), and mock-mode `__init__`
never assigns that attribute, so the call raises `AttributeError` instead of
returning the distinct-document count; the ChromaDB-backed store does return
the number of distinct `document_id` values (1 after adding one document
with three chunks). -/
theorem claim_C5_bug :
    get_document_count (VectorStore.mk_store Unit true) =
      Except.error PyError.attributeError ∧
    get_document_count (V := Unit)
        ⟨false, ⟨[], []⟩,
          some (add_document_chroma [] "doc1" ["A.", "B.", "C."] [])⟩ =
      Except.ok 1 :=
  ⟨rfl, rfl⟩

/-- C1 (counterexample): ChromaDB's `collection.query` returns hits
nearest-first, i.e. with ascending distances; the formatting code of the
real `search` branch (line 181) copies the raw distance into
`similarity_score`.  On a two-hit reply with distances `[1, 9]` the returned
scores are `[1, 9]`, which is not non-increasing — and the nearer (more
similar) chunk carries the LOWER score, so neither the claimed sort order
nor "higher score means more similar" holds in the ChromaDB-backed
implementation. -/
theorem claim_C1_counterexample :
    formatChromaResults (99 : Int)
        ⟨["id1", "id2"], ["x", "y"],
          [[("document_id", PyVal.str "A")], [("document_id", PyVal.str "B")]],
          some [1, 9]⟩ =
      Except.ok
        [{ document_id := PyVal.str "A", content := "x",
           similarity_score := 1, metadata := [("document_id", PyVal.str "A")] },
         { document_id := PyVal.str "B", content := "y",
           similarity_score := 9, metadata := [("document_id", PyVal.str "B")] }] ∧
    ¬ List.Pairwise (fun a b : Int => b ≤ a) [1, 9] :=
  ⟨rfl, by decide⟩

/-- C1 (amended): the mock `search` returns at most `limit` results, sorted
by non-increasing `similarity_score`, and every returned score is the value
of the (cosine) similarity function on the query embedding and the stored
chunk vector, so for the mock branch higher score does mean more similar;
the ChromaDB branch also returns at most the requested number of results,
but it reports the raw ChromaDB distance as `similarity_score` — the
returned score list equals the reply's distance list, which ChromaDB orders
ascending (nearest first), so there lower, not higher, means more
similar. -/
theorem claim_C1_amended {V S : Type} [LinearOrder S] (emb : String → V)
    (sim : V → V → S) (st : MockState V) (query : String) (limit : Nat)
    (filter_criteria : Option (PyDict PyVal)) :
    (search_mock emb sim st query limit filter_criteria).length ≤ limit ∧
    (search_mock emb sim st query limit filter_criteria).Pairwise
      (fun a b => b.similarity_score ≤ a.similarity_score) ∧
    (∀ r ∈ search_mock emb sim st query limit filter_criteria,
      ∃ cid vec, (cid, vec) ∈ st.mock_vectors ∧
        r.similarity_score = sim (emb query) vec) ∧
    (∀ (fallback : S) (reply : ChromaReply S) (ds : List S)
        (rs : List (ChromaSearchResult S)),
      reply.distances = some ds → ds.length = reply.ids.length →
      formatChromaResults fallback reply = Except.ok rs →
      (rs.length = reply.ids.length ∧
        rs.map (fun r => r.similarity_score) = ds)) := by
  refine ⟨List.length_take_le _ _, ?_, ?_, ?_⟩
  · exact (sortDesc_pairwise (α := SearchResult S)
      (fun r => r.similarity_score)
      (searchCandidates sim (emb query) st filter_criteria)).take
  · intro r hr
    have h1 : r ∈ sortDesc (fun r => r.similarity_score)
        (searchCandidates sim (emb query) st filter_criteria) :=
      List.take_subset _ _ hr
    have h2 : r ∈ searchCandidates sim (emb query) st filter_criteria :=
      (sortDesc_perm _ _).mem_iff.mp h1
    rcases List.mem_filterMap.mp h2 with ⟨cv, hcv, hEq⟩
    cases hl : st.mock_documents.lookup cv.1 with
    | none => simp only [hl] at hEq; cases hEq
    | some info =>
      simp only [hl] at hEq
      by_cases hp : passesFilter info.metadata filter_criteria = true
      · rw [if_pos hp] at hEq
        exact ⟨cv.1, cv.2, hcv, by rw [← Option.some.inj hEq]⟩
      · rw [if_neg hp] at hEq
        cases hEq
  · intro fallback reply ds rs hds hlen hok
    unfold formatChromaResults at hok
    have hsc := formatChromaAux_scores fallback reply ds hds _ rs hok
    have hlen2 : rs.length = reply.ids.length := by
      have := congrArg List.length hsc
      rw [List.length_map] at this
      rw [this, ← hlen, filterMap_get_range]
    refine ⟨hlen2, ?_⟩
    rw [hsc, ← hlen, filterMap_get_range]

/-- C1 witness: the amended theorem applied to a concrete store and a
concrete two-hit ChromaDB reply whose distances are `[1, 9]`. -/
theorem claim_C1_amended_witness :
    List.map (fun r => r.similarity_score)
        [({ document_id := PyVal.str "A", content := "x",
            similarity_score := (1 : Int),
            metadata := [("document_id", PyVal.str "A")] } :
              ChromaSearchResult Int),
         { document_id := PyVal.str "B", content := "y",
           similarity_score := 9,
           metadata := [("document_id", PyVal.str "B")] }] = [1, 9] :=
  ((claim_C1_amended (V := Unit) (S := Int) (fun _ => ()) (fun _ _ => 0)
        ⟨[], []⟩ "q" 5 none).2.2.2 99
      ⟨["id1", "id2"], ["x", "y"],
        [[("document_id", PyVal.str "A")], [("document_id", PyVal.str "B")]],
        some [1, 9]⟩
      [1, 9] _ rfl rfl rfl).2

/-- C6 (counterexample): `DocumentProcessor._split_text` delegates to
langchain's `RecursiveCharacterTextSplitter`, which splits on the default
separators (blank line, newline, space, character) and never searches for a
period; with `chunk_size=20, chunk_overlap=5` the first chunk of the claim's
text is `"The cat sat. The dog"` (a full 20-character window ending at a
word boundary), not `"The cat sat."` as the claim requires. -/
theorem claim_C6_counterexample :
    (split_text 20 5 "The cat sat. The dog ran. The bird flew.").head? =
      some "The cat sat. The dog" ∧
    "The cat sat. The dog" ≠ "The cat sat." :=
  ⟨rfl, by decide⟩

/-- C6 (amended): with `chunk_size=20, chunk_overlap=5` the splitter cuts
the text at whitespace, not at sentence boundaries, yielding exactly the
chunks `["The cat sat. The dog", "dog ran. The bird", "bird flew."]`: each
later chunk re-starts from the trailing words of its predecessor that fit
in the 5-character overlap budget, and the final chunk contains the tail
text including `"flew."`. -/
theorem claim_C6_amended :
    split_text 20 5 "The cat sat. The dog ran. The bird flew." =
      ["The cat sat. The dog", "dog ran. The bird", "bird flew."] := rfl

/-- C7: `search` on an empty store returns the empty list for every query,
limit and filter, and raises no error (the embedded function is total); more
generally, whenever every stored chunk fails the filter the result is empty;
and the ChromaDB formatting of an empty reply is an empty result list, not
an error. -/
theorem claim_C7 {V S : Type} [LinearOrder S] :
    (∀ (emb : String → V) (sim : V → V → S) (query : String) (limit : Nat)
        (filter_criteria : Option (PyDict PyVal)),
      search_mock emb sim ⟨[], []⟩ query limit filter_criteria = []) ∧
    (∀ (emb : String → V) (sim : V → V → S) (st : MockState V)
        (query : String) (limit : Nat) (f : PyDict PyVal),
      (∀ cid v info, (cid, v) ∈ st.mock_vectors →
        st.mock_documents.lookup cid = some info →
        filterMatch info.metadata f = false) →
      search_mock emb sim st query limit (some f) = []) ∧
    (∀ fallback : S,
      formatChromaResults fallback
        (⟨[], [], [], none⟩ : ChromaReply S) = Except.ok []) := by
  refine ⟨?_, ?_, ?_⟩
  · intro emb sim query limit filter_criteria
    show List.take limit ([] : List (SearchResult S)) = []
    exact List.take_nil
  · intro emb sim st query limit f hall
    have hc : searchCandidates sim (emb query) st (some f) = [] := by
      refine List.filterMap_eq_nil.mpr (fun cv hcv => ?_)
      cases hl : st.mock_documents.lookup cv.1 with
      | none => rfl
      | some info =>
        dsimp only
        rw [passesFilter_some, hall cv.1 cv.2 info hcv hl]
        rfl
    show List.take limit (sortDesc (fun r => r.similarity_score)
      (searchCandidates sim (emb query) st (some f))) = []
    rw [hc]
    exact List.take_nil
  · intro fallback
    rfl

/-- C7 witness: a store whose single chunk fails the filter yields an empty
search result. -/
theorem claim_C7_witness :
    search_mock (V := Unit) (S := Int) (fun _ => ()) (fun _ _ => 0)
        ⟨[("d_0", ())],
         [("d_0", ⟨"d", "h", [("file_type", PyVal.str "txt")], 0⟩)]⟩
        "q" 5 (some [("file_type", PyVal.str "pdf")]) = [] :=
  (claim_C7 (V := Unit) (S := Int)).2.1 (fun _ => ()) (fun _ _ => 0)
    ⟨[("d_0", ())], [("d_0", ⟨"d", "h", [("file_type", PyVal.str "txt")], 0⟩)]⟩
    "q" 5 [("file_type", PyVal.str "pdf")]
    (by
      intro cid v info h1 h2
      rw [List.mem_singleton, Prod.mk.injEq] at h1
      obtain ⟨rfl, -⟩ := h1
      rw [show List.lookup "d_0"
          [("d_0", (⟨"d", "h", [("file_type", PyVal.str "txt")], 0⟩ : DocInfo))] =
          some ⟨"d", "h", [("file_type", PyVal.str "txt")], 0⟩ from rfl] at h2
      cases h2
      decide)

/-- C8: the mock `search` does not mutate the store and two consecutive
identical calls return the same result list — same hits, same order, same
scores.  The mock embedding (`hash`-seeded numpy, fixed within a process)
and the cosine similarity are modelled as fixed functions `emb` and `sim`,
under which two-run determinism is exact. -/
theorem claim_C8 {V S : Type} [LinearOrder S] (emb : String → V)
    (sim : V → V → S) (st : MockState V) (query : String) (limit : Nat)
    (filter_criteria : Option (PyDict PyVal)) :
    (search_op emb sim
        (search_op emb sim st query limit filter_criteria).2
        query limit filter_criteria).1 =
      (search_op emb sim st query limit filter_criteria).1 ∧
    (search_op emb sim st query limit filter_criteria).2 = st :=
  ⟨rfl, rfl⟩

/-- C9: `delete_document` removes exactly the chunks stored under the given
document id.  Mock branch: a chunk record survives iff it was present and
its `document_id` field differs from the argument (under the dict invariant
of pairwise-distinct chunk ids), and a vector survives iff its chunk id is
not that of any record of the deleted document; surviving entries are kept
unchanged (the state is a `filter` of the old one).  ChromaDB branch: an
entry survives iff it was present and no entry with the same id has
metadata `document_id` equal to the argument. -/
theorem claim_C9 {V : Type} (st : MockState V) (d : String)
    (c : ChromaCollection) :
    (NodupKeys st.mock_documents →
      ∀ cid info,
        ((cid, info) ∈ (delete_document_mock st d).2.mock_documents ↔
          ((cid, info) ∈ st.mock_documents ∧ info.document_id ≠ d))) ∧
    (∀ cid v,
      ((cid, v) ∈ (delete_document_mock st d).2.mock_vectors ↔
        ((cid, v) ∈ st.mock_vectors ∧
          ¬ ∃ info, (cid, info) ∈ st.mock_documents ∧
            info.document_id = d))) ∧
    (∀ e, e ∈ (delete_document_chroma c d).2 ↔
      (e ∈ c ∧ ¬ ∃ e2, e2 ∈ c ∧ e2.id = e.id ∧
        e2.metadata.lookup "document_id" = some (PyVal.str d))) := by
  refine ⟨?_, ?_, ?_⟩
  · intro hn cid info
    show (cid, info) ∈ st.mock_documents.filter
        (fun p => !((chunkIdsToRemove st d).contains p.1)) ↔ _
    rw [List.mem_filter]
    constructor
    · rintro ⟨hm, hni⟩
      refine ⟨hm, fun hd => ?_⟩
      dsimp only at hni
      rw [Bool.not_eq_true'] at hni
      have hc2 : (chunkIdsToRemove st d).contains cid = true :=
        (contains_iff_mem _ _).mpr
          ((mem_removedChunkIds st d cid).mpr ⟨info, hm, hd⟩)
      rw [hc2] at hni
      cases hni
    · rintro ⟨hm, hne⟩
      refine ⟨hm, ?_⟩
      dsimp only
      rw [Bool.not_eq_true']
      cases hct : (chunkIdsToRemove st d).contains cid with
      | false => rfl
      | true =>
        rcases (mem_removedChunkIds st d cid).mp
            ((contains_iff_mem _ _).mp hct) with ⟨info2, hm2, hd2⟩
        exact absurd ((nodupKeys_value_unique hn hm2 hm) ▸ hd2) hne
  · intro cid v
    show (cid, v) ∈ st.mock_vectors.filter
        (fun p => !((chunkIdsToRemove st d).contains p.1)) ↔ _
    rw [List.mem_filter]
    constructor
    · rintro ⟨hm, hni⟩
      refine ⟨hm, fun hex => ?_⟩
      dsimp only at hni
      rw [Bool.not_eq_true'] at hni
      obtain ⟨info, hm2, hd⟩ := hex
      have hc2 : (chunkIdsToRemove st d).contains cid = true :=
        (contains_iff_mem _ _).mpr
          ((mem_removedChunkIds st d cid).mpr ⟨info, hm2, hd⟩)
      rw [hc2] at hni
      cases hni
    · rintro ⟨hm, hne⟩
      refine ⟨hm, ?_⟩
      dsimp only
      rw [Bool.not_eq_true']
      cases hct : (chunkIdsToRemove st d).contains cid with
      | false => rfl
      | true =>
        exact absurd ((mem_removedChunkIds st d cid).mp
          ((contains_iff_mem _ _).mp hct)) hne
  · intro e
    show e ∈ c.filter
        (fun e => !((chromaIdsToRemove c d).contains e.id)) ↔ _
    rw [List.mem_filter]
    constructor
    · rintro ⟨hm, hni⟩
      refine ⟨hm, fun hex => ?_⟩
      rw [Bool.not_eq_true'] at hni
      have hc2 : (chromaIdsToRemove c d).contains e.id = true :=
        (contains_iff_mem _ _).mpr ((mem_removedChromaIds c d e.id).mpr hex)
      rw [hc2] at hni
      cases hni
    · rintro ⟨hm, hne⟩
      refine ⟨hm, ?_⟩
      rw [Bool.not_eq_true']
      cases hct : (chromaIdsToRemove c d).contains e.id with
      | false => rfl
      | true =>
        exact absurd ((mem_removedChromaIds c d e.id).mp
          ((contains_iff_mem _ _).mp hct)) hne

/-- C9 witness: deleting document `"a"` from a two-document store keeps the
chunk of document `"b"` with its record unchanged. -/
theorem claim_C9_witness :
    ("b_0", (⟨"b", "y", [], 0⟩ : DocInfo)) ∈
      (delete_document_mock (V := Unit)
        ⟨[("a_0", ()), ("b_0", ())],
         [("a_0", ⟨"a", "x", [], 0⟩), ("b_0", ⟨"b", "y", [], 0⟩)]⟩
        "a").2.mock_documents :=
  ((claim_C9 (V := Unit)
      ⟨[("a_0", ()), ("b_0", ())],
       [("a_0", ⟨"a", "x", [], 0⟩), ("b_0", ⟨"b", "y", [], 0⟩)]⟩
      "a" []).1
    (by
      show ([(("a_0" : String), (⟨"a", "x", [], 0⟩ : DocInfo)),
        ("b_0", ⟨"b", "y", [], 0⟩)].map Prod.fst).Nodup
      decide)
    "b_0" ⟨"b", "y", [], 0⟩).mpr ⟨by decide, by decide⟩

/-- C10: `add_document` with an empty chunk list performs no iterations of
its loop, stores nothing, leaves the mock state (both dicts) and the
ChromaDB collection exactly as they were, and returns normally (the
embedded functions are total, so no exception path exists). -/
theorem claim_C10 {V : Type} (emb : String → V) (st : MockState V)
    (d : String) (md : PyDict PyVal) (c : ChromaCollection) :
    add_document_mock emb st d [] md = st ∧
    add_document_chroma c d [] md = c :=
  ⟨rfl, List.append_nil c⟩
